import Mathlib

set_option maxHeartbeats 1000000

/- Shallow embedding of rust-tuf src/client.rs (the update orchestrator).
Rust `&mut` state is passed explicitly: every stage takes the trust store
state and returns the state after the call, even when the call fails, so
that partial mutation is observable.  Every collaborator call issued by the
orchestrator (repository fetch_metadata, trust-store adoption submission,
suppressed-failure warning) is additionally recorded in an event trace so
theorems can speak about which calls were made, in which order, with which
arguments, against which source.  Collaborators that are not part of the
embedded source (tuf.rs, crypto.rs, the interchange) are modelled from the
spec and carry a doc comment saying so. -/

/-- Top-level metadata roles (metadata::Role). -/
inductive Role
  | Root
  | Timestamp
  | Snapshot
  | Targets
deriving DecidableEq, Repr, BEq

/-- Metadata version selector (metadata::MetadataVersion): `None` requests the
latest version, `Number n` an explicit version. -/
inductive MetadataVersion
  | None
  | Number (n : Nat)
deriving DecidableEq, Repr, BEq

/-- Modelled from the spec: hash algorithms known to the crypto collaborator
(crypto.rs is not part of the embedded source). -/
inductive HashAlgorithm
  | Sha512
  | Sha256
  | Unsupported
deriving DecidableEq, Repr, BEq

/-- Modelled from the spec: an opaque digest value. -/
abbrev HashValue := String

/-- Error type (error::Error), restricted to the variants the client uses.
`Decode` stands for the opaque transport/decoding failures that pass through
the orchestrator unchanged. -/
inductive Error
  | VerificationFailure (msg : String)
  | MissingMetadata (role : Role)
  | Generic (msg : String)
  | NoSupportedHashAlgorithms
  | Decode (msg : String)
deriving DecidableEq, Repr, BEq

/-- Metadata path naming a role's metadata (metadata::MetadataPath). -/
structure MetadataPath where
  role : Role
deriving DecidableEq, Repr, BEq

/-- MetadataPath::from_role. -/
def MetadataPath.from_role (r : Role) : MetadataPath := ⟨r⟩

/-- Modelled from the spec: the length/hashes descriptor embedded in one
metadata document to authenticate the next fetch (spec §3
MetadataDescriptor; metadata.rs is not part of the embedded source). -/
structure MetadataDescription where
  length : Option Nat
  hashes : Option (List (HashAlgorithm × HashValue))
deriving DecidableEq, Repr, BEq

/-- Modelled from the spec: a fetched, not yet trusted signed metadata
document (spec §3 SignedEnvelope): its declared version, whether its
signatures meet the role's threshold, whether it decodes at all, and its
embedded descriptor map (used once adopted as timestamp or snapshot). -/
structure SignedMetadata where
  version : Nat
  sigOk : Bool
  wellFormed : Bool
  meta : List (MetadataPath × MetadataDescription)
deriving DecidableEq, Repr, BEq

/-- Root metadata as held by the trust store (metadata::RootMetadata,
restricted to the version the orchestrator reads). -/
structure RootMetadata where
  version : Nat
deriving DecidableEq, Repr, BEq

/-- Trusted timestamp metadata: version plus its descriptor map. -/
structure TimestampMetadata where
  version : Nat
  meta : List (MetadataPath × MetadataDescription)
deriving DecidableEq, Repr, BEq

/-- Trusted snapshot metadata: version plus its descriptor map. -/
structure SnapshotMetadata where
  version : Nat
  meta : List (MetadataPath × MetadataDescription)
deriving DecidableEq, Repr, BEq

/-- Trusted targets metadata: version only. -/
structure TargetsMetadata where
  version : Nat
deriving DecidableEq, Repr, BEq

/-- The trust store (tuf::Tuf): currently accepted metadata per role;
timestamp/snapshot/targets are absent until first adoption. -/
structure Tuf where
  root : RootMetadata
  timestamp : Option TimestampMetadata
  snapshot : Option SnapshotMetadata
  targets : Option TargetsMetadata
deriving DecidableEq, Repr, BEq

/-- Modelled from the spec: Tuf::update_root (tuf.rs is not part of the
embedded source).  Per spec §4.2 and §8: an undecodable candidate is an
opaque decode error, a candidate whose signatures fail threshold
verification is a verification error, a well-formed correctly-signed
candidate is adopted iff its version is exactly current+1, and any other
version is reported as not adopted without error.  Adoption never partially
mutates: on any error the store is unchanged. -/
def Tuf.update_root (t : Tuf) (s : SignedMetadata) : Except Error (Bool × Tuf) :=
  if s.wellFormed = false then .error (.Decode "could not decode root metadata")
  else if s.sigOk = false then
    .error (.VerificationFailure "signature threshold not met for root")
  else if s.version = t.root.version + 1 then .ok (true, { t with root := ⟨s.version⟩ })
  else .ok (false, t)

/-- Modelled from the spec: Tuf::update_timestamp.  Per spec §4.2, §3 and §8:
rollback (version below current) is a verification error, re-offering the
current version is reported as not adopted, and a newer correctly-signed
candidate is adopted together with its descriptor map. -/
def Tuf.update_timestamp (t : Tuf) (s : SignedMetadata) : Except Error (Bool × Tuf) :=
  if s.wellFormed = false then .error (.Decode "could not decode timestamp metadata")
  else if s.sigOk = false then
    .error (.VerificationFailure "signature threshold not met for timestamp")
  else match t.timestamp with
    | none => .ok (true, { t with timestamp := some ⟨s.version, s.meta⟩ })
    | some ts =>
      if s.version < ts.version then
        .error (.VerificationFailure "timestamp rollback")
      else if s.version = ts.version then .ok (false, t)
      else .ok (true, { t with timestamp := some ⟨s.version, s.meta⟩ })

/-- Modelled from the spec: Tuf::update_snapshot, same adoption discipline as
the timestamp role. -/
def Tuf.update_snapshot (t : Tuf) (s : SignedMetadata) : Except Error (Bool × Tuf) :=
  if s.wellFormed = false then .error (.Decode "could not decode snapshot metadata")
  else if s.sigOk = false then
    .error (.VerificationFailure "signature threshold not met for snapshot")
  else match t.snapshot with
    | none => .ok (true, { t with snapshot := some ⟨s.version, s.meta⟩ })
    | some sn =>
      if s.version < sn.version then
        .error (.VerificationFailure "snapshot rollback")
      else if s.version = sn.version then .ok (false, t)
      else .ok (true, { t with snapshot := some ⟨s.version, s.meta⟩ })

/-- Modelled from the spec: Tuf::update_targets, same adoption discipline as
the timestamp role. -/
def Tuf.update_targets (t : Tuf) (s : SignedMetadata) : Except Error (Bool × Tuf) :=
  if s.wellFormed = false then .error (.Decode "could not decode targets metadata")
  else if s.sigOk = false then
    .error (.VerificationFailure "signature threshold not met for targets")
  else match t.targets with
    | none => .ok (true, { t with targets := some ⟨s.version⟩ })
    | some ta =>
      if s.version < ta.version then
        .error (.VerificationFailure "targets rollback")
      else if s.version = ta.version then .ok (false, t)
      else .ok (true, { t with targets := some ⟨s.version⟩ })

/-- Tags which repository field of the client a fetch was issued against. -/
inductive SourceTag
  | Local
  | Remote
deriving DecidableEq, Repr, BEq

/-- A repository collaborator (repository::Repository): an identity tag and
the fetch_metadata behaviour, modelled as a pure function of the call
arguments (role, version, max_size, acceptable hash). -/
structure Repository where
  tag : SourceTag
  fetch_metadata : Role → MetadataVersion → Option Nat →
    Option (HashAlgorithm × HashValue) → Except Error SignedMetadata

/-- One recorded collaborator call: a repository fetch with its exact
arguments, a submission of a candidate document to the trust store's
adoption operation for a role, or a suppressed-failure warning. -/
inductive Event
  | fetch (src : SourceTag) (role : Role) (version : MetadataVersion)
      (max_size : Option Nat) (hashes : Option (HashAlgorithm × HashValue))
  | submit (role : Role) (doc : SignedMetadata)
  | warn (role : Role)
deriving DecidableEq, Repr, BEq

/-- Modelled from the spec: the peek
D::deserialize::<RootMetadata>(doc.unverified_signed()).version() used by
Client::update_root (the interchange collaborator is not part of the
embedded source).  A pure, side-effect-free read of the declared version;
decoding failures pass through opaquely. -/
def deserialize_root_version (s : SignedMetadata) : Except Error Nat :=
  if s.wellFormed then .ok s.version else .error (.Decode "could not decode root metadata")

/-- Modelled from the spec: crypto::hash_preference — selects the first
supported algorithm in a fixed preference order (Sha512, then Sha256),
failing when none of the listed algorithms is supported. -/
def hash_preference (hashes : List (HashAlgorithm × HashValue)) :
    Except Error (HashAlgorithm × HashValue) :=
  match hashes.lookup HashAlgorithm.Sha512 with
  | some v => .ok (HashAlgorithm.Sha512, v)
  | none =>
    match hashes.lookup HashAlgorithm.Sha256 with
    | some v => .ok (HashAlgorithm.Sha256, v)
    | none => .error .NoSupportedHashAlgorithms

/-- Configuration for a TUF Client (client.rs lines 233-245). -/
structure Config where
  max_root_size : Option Nat
  max_timestamp_size : Option Nat
deriving DecidableEq, Repr, BEq

/-- Helper for building and validating a TUF Config (client.rs lines 247-252). -/
structure ConfigBuilder where
  max_root_size : Option Nat
  max_timestamp_size : Option Nat
deriving DecidableEq, Repr, BEq

/-- ConfigBuilder::finish (client.rs lines 256-261): unconditionally returns
the Config carrying the builder's two fields. -/
def ConfigBuilder.finish (b : ConfigBuilder) : Except Error Config :=
  .ok { max_root_size := b.max_root_size, max_timestamp_size := b.max_timestamp_size }

/-- ConfigBuilder::max_root_size (client.rs lines 264-267); named with a
set_ prefix because the field accessor already takes the source name. -/
def ConfigBuilder.set_max_root_size (b : ConfigBuilder) (max : Option Nat) : ConfigBuilder :=
  { b with max_root_size := max }

/-- ConfigBuilder::max_timestamp_size (client.rs lines 270-273). -/
def ConfigBuilder.set_max_timestamp_size (b : ConfigBuilder) (max : Option Nat) : ConfigBuilder :=
  { b with max_timestamp_size := max }

/-- Default for ConfigBuilder (client.rs lines 287-292): 1 MiB root ceiling,
32 KiB timestamp ceiling. -/
def ConfigBuilder.default : ConfigBuilder :=
  { max_root_size := some (1024 * 1024), max_timestamp_size := some (32 * 1024) }

/-- Config::build (client.rs lines 242-244). -/
def Config.build : ConfigBuilder := ConfigBuilder.default

/-- Client state (client.rs lines 12-22).  The source fields are named
`local` and `remote`; `local` is a Lean keyword, hence the suffix. -/
structure Client where
  tuf : Tuf
  config : Config
  local_repo : Repository
  remote_repo : Repository

/-- Client::new (client.rs lines 32-39). -/
def Client.new (tuf : Tuf) (config : Config) (l : Repository) (r : Repository) : Client :=
  { tuf := tuf, config := config, local_repo := l, remote_repo := r }

/-- The internal-invariant message of Client::update_root
(client.rs lines 123-124). -/
def err_msg : String :=
  "TUF claimed no update occurred when one should have. This is a programming error. Please report this as a bug."

/-- The loop `for i in (tuf.root().version() + 1)..latest_version` of
Client::update_root (client.rs lines 126-137), with the iteration count made
explicit: `update_root_steps repo mrs n i tuf` performs the iterations for
versions i, i+1, ..., i+n-1.  Each iteration fetches that exact version and
submits it to root adoption; a submission reported not adopted becomes the
Generic internal-invariant error. -/
def update_root_steps (repo : Repository) (max_root_size : Option Nat) :
    Nat → Nat → Tuf → Except Error Unit × Tuf × List Event
  | 0, _, tuf => (.ok (), tuf, [])
  | n + 1, i, tuf =>
    match repo.fetch_metadata .Root (.Number i) max_root_size none with
    | .error e => (.error e, tuf, [Event.fetch repo.tag .Root (.Number i) max_root_size none])
    | .ok signed =>
      match tuf.update_root signed with
      | .error e =>
        (.error e, tuf,
         [Event.fetch repo.tag .Root (.Number i) max_root_size none,
          Event.submit .Root signed])
      | .ok (false, tuf') =>
        (.error (.Generic err_msg), tuf',
         [Event.fetch repo.tag .Root (.Number i) max_root_size none,
          Event.submit .Root signed])
      | .ok (true, tuf') =>
        match update_root_steps repo max_root_size n (i + 1) tuf' with
        | (r, tufF, tr) =>
          (r, tufF,
           Event.fetch repo.tag .Root (.Number i) max_root_size none ::
             Event.submit .Root signed :: tr)

/-- Client::update_root (client.rs lines 100-144): fetch the latest root,
peek its version, compare against the trusted version, and step through the
intermediate versions before submitting the originally fetched latest
document. -/
def update_root (tuf : Tuf) (repo : Repository) (max_root_size : Option Nat) :
    Except Error Bool × Tuf × List Event :=
  match repo.fetch_metadata .Root .None max_root_size none with
  | .error e => (.error e, tuf, [Event.fetch repo.tag .Root .None max_root_size none])
  | .ok latest_root =>
    match deserialize_root_version latest_root with
    | .error e => (.error e, tuf, [Event.fetch repo.tag .Root .None max_root_size none])
    | .ok latest_version =>
      if latest_version < tuf.root.version then
        (.error (.VerificationFailure
          ("Latest root version is lower than current root version: " ++
            toString latest_version ++ " < " ++ toString tuf.root.version)),
         tuf, [Event.fetch repo.tag .Root .None max_root_size none])
      else if latest_version = tuf.root.version then
        (.ok false, tuf, [Event.fetch repo.tag .Root .None max_root_size none])
      else
        match update_root_steps repo max_root_size
            (latest_version - (tuf.root.version + 1)) (tuf.root.version + 1) tuf with
        | (.error e, tuf1, tr) =>
          (.error e, tuf1, Event.fetch repo.tag .Root .None max_root_size none :: tr)
        | (.ok _, tuf1, tr) =>
          match tuf1.update_root latest_root with
          | .error e =>
            (.error e, tuf1,
             Event.fetch repo.tag .Root .None max_root_size none ::
               (tr ++ [Event.submit .Root latest_root]))
          | .ok (false, tuf2) =>
            (.error (.Generic err_msg), tuf2,
             Event.fetch repo.tag .Root .None max_root_size none ::
               (tr ++ [Event.submit .Root latest_root]))
          | .ok (true, tuf2) =>
            (.ok true, tuf2,
             Event.fetch repo.tag .Root .None max_root_size none ::
               (tr ++ [Event.submit .Root latest_root]))

/-- Client::update_timestamp (client.rs lines 147-162): fetch the latest
timestamp bounded by max_timestamp_size with no hash check, submit it to
timestamp adoption. -/
def update_timestamp (tuf : Tuf) (repo : Repository) (max_timestamp_size : Option Nat) :
    Except Error Bool × Tuf × List Event :=
  match repo.fetch_metadata .Timestamp .None max_timestamp_size none with
  | .error e =>
    (.error e, tuf, [Event.fetch repo.tag .Timestamp .None max_timestamp_size none])
  | .ok ts =>
    match tuf.update_timestamp ts with
    | .error e =>
      (.error e, tuf,
       [Event.fetch repo.tag .Timestamp .None max_timestamp_size none,
        Event.submit .Timestamp ts])
    | .ok (b, tuf') =>
      (.ok b, tuf',
       [Event.fetch repo.tag .Timestamp .None max_timestamp_size none,
        Event.submit .Timestamp ts])

/-- Client::update_snapshot (client.rs lines 165-196): requires a trusted
timestamp, reads the snapshot descriptor out of it (the source looks it up
under MetadataPath::from_role(Role::Timestamp)), selects a digest by
preference when the descriptor lists hashes, fetches the snapshot bounded by
the descriptor's length and digest, and submits it to snapshot adoption. -/
def update_snapshot (tuf : Tuf) (repo : Repository) :
    Except Error Bool × Tuf × List Event :=
  match tuf.timestamp with
  | none => (.error (.MissingMetadata .Timestamp), tuf, [])
  | some ts =>
    match ts.meta.lookup (MetadataPath.from_role .Timestamp) with
    | none =>
      (.error (.VerificationFailure
        "Timestamp metadata did not contain a description of the current snapshot metadata."),
       tuf, [])
    | some snapshot_description =>
      match (match snapshot_description.hashes with
             | some hs =>
               match hash_preference hs with
               | .ok h => Except.ok (some h)
               | .error e => Except.error e
             | none => Except.ok Option.none :
             Except Error (Option (HashAlgorithm × HashValue))) with
      | .error e => (.error e, tuf, [])
      | .ok hashes =>
        match repo.fetch_metadata .Snapshot .None snapshot_description.length hashes with
        | .error e =>
          (.error e, tuf,
           [Event.fetch repo.tag .Snapshot .None snapshot_description.length hashes])
        | .ok snap =>
          match tuf.update_snapshot snap with
          | .error e =>
            (.error e, tuf,
             [Event.fetch repo.tag .Snapshot .None snapshot_description.length hashes,
              Event.submit .Snapshot snap])
          | .ok (b, tuf') =>
            (.ok b, tuf',
             [Event.fetch repo.tag .Snapshot .None snapshot_description.length hashes,
              Event.submit .Snapshot snap])

/-- Client::update_targets (client.rs lines 199-230): requires a trusted
snapshot, reads the targets descriptor out of it (looked up under
MetadataPath::from_role(Role::Targets)), selects a digest by preference when
the descriptor lists hashes, fetches the targets metadata bounded by the
descriptor's length and digest, and submits it to targets adoption. -/
def update_targets (tuf : Tuf) (repo : Repository) :
    Except Error Bool × Tuf × List Event :=
  match tuf.snapshot with
  | none => (.error (.MissingMetadata .Snapshot), tuf, [])
  | some sn =>
    match sn.meta.lookup (MetadataPath.from_role .Targets) with
    | none =>
      (.error (.VerificationFailure
        "Snapshot metadata did not contain a description of the current targets metadata."),
       tuf, [])
    | some targets_description =>
      match (match targets_description.hashes with
             | some hs =>
               match hash_preference hs with
               | .ok h => Except.ok (some h)
               | .error e => Except.error e
             | none => Except.ok Option.none :
             Except Error (Option (HashAlgorithm × HashValue))) with
      | .error e => (.error e, tuf, [])
      | .ok hashes =>
        match repo.fetch_metadata .Targets .None targets_description.length hashes with
        | .error e =>
          (.error e, tuf,
           [Event.fetch repo.tag .Targets .None targets_description.length hashes])
        | .ok targets =>
          match tuf.update_targets targets with
          | .error e =>
            (.error e, tuf,
             [Event.fetch repo.tag .Targets .None targets_description.length hashes,
              Event.submit .Targets targets])
          | .ok (b, tuf') =>
            (.ok b, tuf',
             [Event.fetch repo.tag .Targets .None targets_description.length hashes,
              Event.submit .Targets targets])

/-- Client::update_local (client.rs lines 44-82): the root stage propagates
its error; the timestamp, snapshot and targets stages each have their error
caught, logged as a warning, and treated as no update for that stage; the
result is the boolean OR of the four stage outcomes. -/
def update_local (c : Client) : Except Error Bool × Client × List Event :=
  match update_root c.tuf c.local_repo c.config.max_root_size with
  | (.error e, tuf1, t1) => (.error e, { c with tuf := tuf1 }, t1)
  | (.ok r, tuf1, t1) =>
    match (match update_timestamp tuf1 c.local_repo c.config.max_timestamp_size with
           | (.ok b, t, tr) => (b, t, tr)
           | (.error _, t, tr) => (false, t, tr ++ [Event.warn .Timestamp])) with
    | (ts, tuf2, t2) =>
      match (match update_snapshot tuf2 c.local_repo with
             | (.ok b, t, tr) => (b, t, tr)
             | (.error _, t, tr) => (false, t, tr ++ [Event.warn .Snapshot])) with
      | (sn, tuf3, t3) =>
        match (match update_targets tuf3 c.local_repo with
               | (.ok b, t, tr) => (b, t, tr)
               | (.error _, t, tr) => (false, t, tr ++ [Event.warn .Targets])) with
        | (ta, tuf4, t4) =>
          (.ok (r || ts || sn || ta), { c with tuf := tuf4 }, t1 ++ t2 ++ t3 ++ t4)

/-- Client::update_remote (client.rs lines 87-97): the source expression is
`Ok(update_root(..)? || update_timestamp(..)? || update_snapshot(..)? ||
update_targets(..)?)`, so `||` short-circuits: the first stage error aborts
the call, and the first stage that returns true ends the call with true,
skipping all later stages.  Root, timestamp and snapshot run against the
remote repository; targets runs against the local repository. -/
def update_remote (c : Client) : Except Error Bool × Client × List Event :=
  match update_root c.tuf c.remote_repo c.config.max_root_size with
  | (.error e, tuf1, t1) => (.error e, { c with tuf := tuf1 }, t1)
  | (.ok true, tuf1, t1) => (.ok true, { c with tuf := tuf1 }, t1)
  | (.ok false, tuf1, t1) =>
    match update_timestamp tuf1 c.remote_repo c.config.max_timestamp_size with
    | (.error e, tuf2, t2) => (.error e, { c with tuf := tuf2 }, t1 ++ t2)
    | (.ok true, tuf2, t2) => (.ok true, { c with tuf := tuf2 }, t1 ++ t2)
    | (.ok false, tuf2, t2) =>
      match update_snapshot tuf2 c.remote_repo with
      | (.error e, tuf3, t3) => (.error e, { c with tuf := tuf3 }, t1 ++ t2 ++ t3)
      | (.ok true, tuf3, t3) => (.ok true, { c with tuf := tuf3 }, t1 ++ t2 ++ t3)
      | (.ok false, tuf3, t3) =>
        match update_targets tuf3 c.local_repo with
        | (.error e, tuf4, t4) =>
          (.error e, { c with tuf := tuf4 }, t1 ++ t2 ++ t3 ++ t4)
        | (.ok b, tuf4, t4) =>
          (.ok b, { c with tuf := tuf4 }, t1 ++ t2 ++ t3 ++ t4)

/-- The events produced by the intermediate-version loop of
Client::update_root when every iteration succeeds: for each version i,
i+1, ..., i+n-1 a fetch of that exact version followed by the submission of
the fetched document `docs` to root adoption. -/
def root_chain_trace (tg : SourceTag) (mrs : Option Nat) (docs : Nat → SignedMetadata) :
    Nat → Nat → List Event
  | 0, _ => []
  | n + 1, i =>
    Event.fetch tg .Root (.Number i) mrs none ::
      Event.submit .Root (docs i) :: root_chain_trace tg mrs docs n (i + 1)

/-- Holds of an event unless it is a fetch carrying an acceptable-digest set. -/
def fetch_digests_none_b : Event → Bool
  | .fetch _ _ _ _ (some _) => false
  | _ => true

/-- Holds of an event unless it is a fetch requesting an explicit version
number rather than the latest version. -/
def fetch_version_latest_b : Event → Bool
  | .fetch _ _ (.Number _) _ _ => false
  | _ => true

/-- Holds of an event unless it is a fetch whose source differs from `tg` or
whose role differs from `r`. -/
def stage_event_b (tg : SourceTag) (r : Role) : Event → Bool
  | .fetch s r' _ _ _ => decide (s = tg) && decide (r' = r)
  | _ => true

/-- The source-selection policy of Client::update_remote: fetches for the
Targets role are issued against the local source `lt`, fetches for every
other role against the remote source `rt`. -/
def source_policy (lt rt : SourceTag) : Event → Bool
  | .fetch s r _ _ _ =>
    match r with
    | .Targets => decide (s = lt)
    | _ => decide (s = rt)
  | _ => true

/-- The boolean a suppressed stage contributes in Client::update_local:
errors count as no update. -/
def stage_bool : Except Error Bool → Bool
  | .ok b => b
  | .error _ => false

/-- The warning event Client::update_local emits when a suppressed stage
fails. -/
def warn_if : Except Error Bool → Role → List Event
  | .ok _, _ => []
  | .error _, w => [Event.warn w]

/-- A signed document fixture: version v, threshold satisfied iff ok,
decodable, empty descriptor map. -/
def exDoc (v : Nat) (ok : Bool) : SignedMetadata := ⟨v, ok, true, []⟩

/-- A trust store with trusted root version 1 and nothing else trusted. -/
def exTuf1 : Tuf := ⟨⟨1⟩, none, none, none⟩

/-- The default configuration values. -/
def exConfig : Config := ⟨some 1048576, some 32768⟩

/-- A repository failing every fetch. -/
def errRepo (tg : SourceTag) : Repository :=
  ⟨tg, fun _ _ _ _ => .error (.Decode "unavailable")⟩

/-- A remote repository offering root version 2 and failing every other fetch
(in particular every timestamp fetch). -/
def repoRootV2 : Repository :=
  ⟨.Remote, fun r v _ _ =>
    match r, v with
    | .Root, .None => .ok (exDoc 2 true)
    | _, _ => .error (.Decode "unavailable")⟩

/-- A client whose remote offers a root update to version 2 and whose
repositories fail every other fetch. -/
def clientRootV2 : Client := ⟨exTuf1, exConfig, errRepo .Local, repoRootV2⟩

/-- A client whose repositories fail every fetch. -/
def clientAllErr : Client := ⟨exTuf1, exConfig, errRepo .Local, errRepo .Remote⟩

/-- A remote repository offering latest root version 4 with a correctly
signed version 2 but a version 3 whose signatures fail verification. -/
def repoChainBadSig : Repository :=
  ⟨.Remote, fun r v _ _ =>
    match r, v with
    | .Root, .None => .ok (exDoc 4 true)
    | .Root, .Number 2 => .ok (exDoc 2 true)
    | .Root, .Number 3 => .ok (exDoc 3 false)
    | _, _ => .error (.Decode "unavailable")⟩

/-- A remote repository offering latest root version 4 with a correctly
signed version 2 but serving a document declaring version 7 in the slot for
version 3 (which a consistent trust store reports as not adopted). -/
def repoChainWrongVersion : Repository :=
  ⟨.Remote, fun r v _ _ =>
    match r, v with
    | .Root, .None => .ok (exDoc 4 true)
    | .Root, .Number 2 => .ok (exDoc 2 true)
    | .Root, .Number 3 => .ok (exDoc 7 true)
    | _, _ => .error (.Decode "unavailable")⟩

/-- A remote repository offering a fully valid root chain up to version 4. -/
def repoChainGood : Repository :=
  ⟨.Remote, fun r v _ _ =>
    match r, v with
    | .Root, .None => .ok (exDoc 4 true)
    | .Root, .Number j => .ok (exDoc j true)
    | _, _ => .error (.Decode "unavailable")⟩

/-- The documents served by repoChainGood for explicit versions. -/
def docsGood : Nat → SignedMetadata := fun j => exDoc j true

/-- A local repository whose cached root is still version 1 and which has no
other cached metadata. -/
def repoStaleLocal : Repository :=
  ⟨.Local, fun r v _ _ =>
    match r, v with
    | .Root, .None => .ok (exDoc 1 true)
    | _, _ => .error (.Decode "unavailable")⟩

/-- A client whose local cache only holds the already-trusted root. -/
def clientLocalStale : Client := ⟨exTuf1, exConfig, repoStaleLocal, errRepo .Remote⟩

/-- A metadata descriptor fixture declaring a length and a Sha256 digest. -/
def exDesc : MetadataDescription := ⟨some 100, some [(HashAlgorithm.Sha256, "digest")]⟩

/-- A trust store with a trusted timestamp whose descriptor map holds exDesc
under the Timestamp path. -/
def exTufTs : Tuf :=
  ⟨⟨1⟩, some ⟨1, [(MetadataPath.from_role .Timestamp, exDesc)]⟩, none, none⟩

/-- Every event in the trace of the intermediate-version loop satisfies a
predicate that holds of every explicit-version root fetch with no digest set
and of every root submission. -/
lemma update_root_steps_trace_all (repo : Repository) (mrs : Option Nat) (p : Event → Bool)
    (hf : ∀ i, p (Event.fetch repo.tag .Root (.Number i) mrs none) = true)
    (hs : ∀ d, p (Event.submit .Root d) = true) :
    ∀ n i tuf, ((update_root_steps repo mrs n i tuf).2.2.all p) = true := by
  intro n
  induction n with
  | zero => intro i tuf; simp [update_root_steps]
  | succ n ih =>
    intro i tuf
    simp only [update_root_steps]
    cases hfm : repo.fetch_metadata .Root (.Number i) mrs none with
    | error e => simp [hf]
    | ok signed =>
      cases hup : tuf.update_root signed with
      | error e => simp [hup, hf, hs]
      | ok bt =>
        obtain ⟨b, tuf'⟩ := bt
        cases b with
        | false => simp [hup, hf, hs]
        | true =>
          rcases hrec : update_root_steps repo mrs n (i + 1) tuf' with ⟨r, tufF, tr⟩
          have := ih (i + 1) tuf'
          rw [hrec] at this
          simp_all [hup, hf, hs]

/-- Every event in the trace of the root stage satisfies a predicate that
holds of every root fetch with no digest set and every root submission. -/
lemma update_root_trace_all (tuf : Tuf) (repo : Repository) (mrs : Option Nat)
    (p : Event → Bool)
    (hf : ∀ v, p (Event.fetch repo.tag .Root v mrs none) = true)
    (hs : ∀ d, p (Event.submit .Root d) = true) :
    ((update_root tuf repo mrs).2.2.all p) = true := by
  simp only [update_root]
  cases hfm : repo.fetch_metadata .Root .None mrs none with
  | error e => simp [hfm, hf]
  | ok latest_root =>
    cases hds : deserialize_root_version latest_root with
    | error e => simp [hds, hf]
    | ok latest_version =>
      by_cases h1 : latest_version < tuf.root.version
      · simp [hds, h1, hf]
      · by_cases h2 : latest_version = tuf.root.version
        · simp [hds, h1, h2, hf]
        · rcases hst : update_root_steps repo mrs
              (latest_version - (tuf.root.version + 1)) (tuf.root.version + 1) tuf
            with ⟨r, tuf1, tr⟩
          have htr : tr.all p = true := by
            have := update_root_steps_trace_all repo mrs p (fun i => hf (.Number i)) hs
              (latest_version - (tuf.root.version + 1)) (tuf.root.version + 1) tuf
            rw [hst] at this
            exact this
          cases r with
          | error e => simp [hds, h1, h2, hst, hf, htr]
          | ok u =>
            cases hup : tuf1.update_root latest_root with
            | error e => simp [hds, h1, h2, hst, hup, hf, hs, htr]
            | ok bt =>
              obtain ⟨b, tuf2⟩ := bt
              cases b with
              | false => simp [hds, h1, h2, hst, hup, hf, hs, htr]
              | true => simp [hds, h1, h2, hst, hup, hf, hs, htr]

/-- Every event in the trace of the timestamp stage satisfies a predicate
that holds of the timestamp fetch (no digest set) and every timestamp
submission. -/
lemma update_timestamp_trace_all (tuf : Tuf) (repo : Repository) (mts : Option Nat)
    (p : Event → Bool)
    (hf : p (Event.fetch repo.tag .Timestamp .None mts none) = true)
    (hs : ∀ d, p (Event.submit .Timestamp d) = true) :
    ((update_timestamp tuf repo mts).2.2.all p) = true := by
  simp only [update_timestamp]
  cases hfm : repo.fetch_metadata .Timestamp .None mts none with
  | error e => simp [hfm, hf]
  | ok ts =>
    cases hup : tuf.update_timestamp ts with
    | error e => simp [hfm, hup, hf, hs]
    | ok bt => obtain ⟨b, tuf'⟩ := bt; simp [hfm, hup, hf, hs]

/-- Every event in the trace of the snapshot stage satisfies a predicate
that holds of every latest-version snapshot fetch and every snapshot
submission. -/
lemma update_snapshot_trace_all (tuf : Tuf) (repo : Repository)
    (p : Event → Bool)
    (hf : ∀ l h, p (Event.fetch repo.tag .Snapshot .None l h) = true)
    (hs : ∀ d, p (Event.submit .Snapshot d) = true) :
    ((update_snapshot tuf repo).2.2.all p) = true := by
  simp only [update_snapshot]
  cases hts : tuf.timestamp with
  | none => simp
  | some ts =>
    cases hlk : ts.meta.lookup (MetadataPath.from_role .Timestamp) with
    | none => simp [hlk]
    | some d =>
      cases hh : d.hashes with
      | none =>
        cases hfm : repo.fetch_metadata .Snapshot .None d.length none with
        | error e => simp [hlk, hh, hfm, hf]
        | ok snap =>
          cases hup : tuf.update_snapshot snap with
          | error e => simp [hlk, hh, hfm, hup, hf, hs]
          | ok bt => obtain ⟨b, tuf'⟩ := bt; simp [hlk, hh, hfm, hup, hf, hs]
      | some hsl =>
        cases hpref : hash_preference hsl with
        | error e => simp [hlk, hh, hpref]
        | ok h =>
          cases hfm : repo.fetch_metadata .Snapshot .None d.length (some h) with
          | error e => simp [hlk, hh, hpref, hfm, hf]
          | ok snap =>
            cases hup : tuf.update_snapshot snap with
            | error e => simp [hlk, hh, hpref, hfm, hup, hf, hs]
            | ok bt => obtain ⟨b, tuf'⟩ := bt; simp [hlk, hh, hpref, hfm, hup, hf, hs]

/-- Every event in the trace of the targets stage satisfies a predicate that
holds of every latest-version targets fetch and every targets submission. -/
lemma update_targets_trace_all (tuf : Tuf) (repo : Repository)
    (p : Event → Bool)
    (hf : ∀ l h, p (Event.fetch repo.tag .Targets .None l h) = true)
    (hs : ∀ d, p (Event.submit .Targets d) = true) :
    ((update_targets tuf repo).2.2.all p) = true := by
  simp only [update_targets]
  cases hts : tuf.snapshot with
  | none => simp
  | some sn =>
    cases hlk : sn.meta.lookup (MetadataPath.from_role .Targets) with
    | none => simp [hlk]
    | some d =>
      cases hh : d.hashes with
      | none =>
        cases hfm : repo.fetch_metadata .Targets .None d.length none with
        | error e => simp [hlk, hh, hfm, hf]
        | ok ta =>
          cases hup : tuf.update_targets ta with
          | error e => simp [hlk, hh, hfm, hup, hf, hs]
          | ok bt => obtain ⟨b, tuf'⟩ := bt; simp [hlk, hh, hfm, hup, hf, hs]
      | some hsl =>
        cases hpref : hash_preference hsl with
        | error e => simp [hlk, hh, hpref]
        | ok h =>
          cases hfm : repo.fetch_metadata .Targets .None d.length (some h) with
          | error e => simp [hlk, hh, hpref, hfm, hf]
          | ok ta =>
            cases hup : tuf.update_targets ta with
            | error e => simp [hlk, hh, hpref, hfm, hup, hf, hs]
            | ok bt => obtain ⟨b, tuf'⟩ := bt; simp [hlk, hh, hpref, hfm, hup, hf, hs]

/-- C9: the config builder's default has max_root_size = 1 MiB (1048576
bytes) and max_timestamp_size = 32 KiB (32768 bytes); for every builder
state finish() succeeds and returns a Config carrying exactly the builder's
two fields, and each setter replaces only its own field. -/
theorem config_builder_defaults_and_setters :
    (ConfigBuilder.default.max_root_size = some 1048576 ∧
     ConfigBuilder.default.max_timestamp_size = some 32768) ∧
    (∀ b : ConfigBuilder,
       b.finish = .ok { max_root_size := b.max_root_size,
                        max_timestamp_size := b.max_timestamp_size }) ∧
    (∀ b : ConfigBuilder, ∀ m : Option Nat,
       (b.set_max_root_size m).max_root_size = m ∧
       (b.set_max_root_size m).max_timestamp_size = b.max_timestamp_size) ∧
    (∀ b : ConfigBuilder, ∀ m : Option Nat,
       (b.set_max_timestamp_size m).max_timestamp_size = m ∧
       (b.set_max_timestamp_size m).max_root_size = b.max_root_size) ∧
    Config.build = ConfigBuilder.default := by
  exact ⟨⟨rfl, rfl⟩, fun b => rfl, fun b m => ⟨rfl, rfl⟩, fun b m => ⟨rfl, rfl⟩, rfl⟩

/-- C10: every fetch issued by the snapshot and targets stages requests the
latest metadata version (MetadataVersion.None), never an explicit version
number, and every root-stage and timestamp-stage fetch passes no
acceptable-digest set. -/
theorem fetch_version_and_digest_policy (tuf : Tuf) (repo : Repository)
    (mrs mts : Option Nat) :
    ((update_root tuf repo mrs).2.2.all fetch_digests_none_b) = true ∧
    ((update_timestamp tuf repo mts).2.2.all fetch_digests_none_b) = true ∧
    ((update_snapshot tuf repo).2.2.all fetch_version_latest_b) = true ∧
    ((update_targets tuf repo).2.2.all fetch_version_latest_b) = true := by
  refine ⟨?_, ?_, ?_, ?_⟩
  · exact update_root_trace_all tuf repo mrs _ (fun v => rfl) (fun d => rfl)
  · exact update_timestamp_trace_all tuf repo mts _ rfl (fun d => rfl)
  · exact update_snapshot_trace_all tuf repo _ (fun l h => rfl) (fun d => rfl)
  · exact update_targets_trace_all tuf repo _ (fun l h => rfl) (fun d => rfl)

/-- C6: the snapshot refresh stage, invoked when no timestamp is trusted,
fails with a missing-prerequisite-metadata error naming the Timestamp role
and leaves trusted state unchanged (same store returned, no collaborator
call issued); when a timestamp is trusted it reads the snapshot descriptor
out of that trusted timestamp's descriptor map, and fails with a
verification error if that descriptor is absent. -/
theorem update_snapshot_prerequisites (tuf : Tuf) (repo : Repository) :
    (tuf.timestamp = none →
       update_snapshot tuf repo = (.error (.MissingMetadata .Timestamp), tuf, [])) ∧
    (∀ ts, tuf.timestamp = some ts →
       ts.meta.lookup (MetadataPath.from_role .Timestamp) = none →
       update_snapshot tuf repo =
         (.error (.VerificationFailure
           "Timestamp metadata did not contain a description of the current snapshot metadata."),
          tuf, [])) := by
  constructor
  · intro h
    simp [update_snapshot, h]
  · intro ts h hlk
    simp [update_snapshot, h, hlk]

/-- Witness for C6: on a store with no trusted timestamp the snapshot stage
fails naming Timestamp and changes nothing. -/
theorem update_snapshot_prerequisites_witness :
    update_snapshot exTuf1 (errRepo .Local) =
      (.error (.MissingMetadata .Timestamp), exTuf1, []) :=
  (update_snapshot_prerequisites exTuf1 (errRepo .Local)).1 rfl

/-- C7: every snapshot/targets fetch passes exactly the length declared in
the referencing descriptor as its maximum length and, when the descriptor
lists hashes, the digest selected by the fixed preference order (the stage
fails without fetching when no listed algorithm is supported); the targets
stage fails with a missing-prerequisite error naming Snapshot when no
snapshot is trusted. -/
theorem descriptor_bounded_fetches (tuf : Tuf) (repo : Repository) :
    (∀ ts d, tuf.timestamp = some ts →
       ts.meta.lookup (MetadataPath.from_role .Timestamp) = some d →
       ((d.hashes = none →
           (update_snapshot tuf repo).2.2.head? =
             some (Event.fetch repo.tag .Snapshot .None d.length none)) ∧
        (∀ hsl e, d.hashes = some hsl → hash_preference hsl = .error e →
           update_snapshot tuf repo = (.error e, tuf, [])) ∧
        (∀ hsl h, d.hashes = some hsl → hash_preference hsl = .ok h →
           (update_snapshot tuf repo).2.2.head? =
             some (Event.fetch repo.tag .Snapshot .None d.length (some h))))) ∧
    (∀ sn d, tuf.snapshot = some sn →
       sn.meta.lookup (MetadataPath.from_role .Targets) = some d →
       ((d.hashes = none →
           (update_targets tuf repo).2.2.head? =
             some (Event.fetch repo.tag .Targets .None d.length none)) ∧
        (∀ hsl e, d.hashes = some hsl → hash_preference hsl = .error e →
           update_targets tuf repo = (.error e, tuf, [])) ∧
        (∀ hsl h, d.hashes = some hsl → hash_preference hsl = .ok h →
           (update_targets tuf repo).2.2.head? =
             some (Event.fetch repo.tag .Targets .None d.length (some h))))) ∧
    (tuf.snapshot = none →
       update_targets tuf repo = (.error (.MissingMetadata .Snapshot), tuf, [])) := by
  refine ⟨?_, ?_, ?_⟩
  · intro ts d hts hlk
    refine ⟨?_, ?_, ?_⟩
    · intro hh
      simp only [update_snapshot, hts, hlk, hh]
      cases hfm : repo.fetch_metadata .Snapshot .None d.length none with
      | error e => simp [hfm]
      | ok snap =>
        cases hup : tuf.update_snapshot snap with
        | error e => simp [hfm, hup]
        | ok bt => obtain ⟨b, tuf'⟩ := bt; simp [hfm, hup]
    · intro hsl e hh hpref
      simp [update_snapshot, hts, hlk, hh, hpref]
    · intro hsl h hh hpref
      simp only [update_snapshot, hts, hlk, hh, hpref]
      cases hfm : repo.fetch_metadata .Snapshot .None d.length (some h) with
      | error e => simp [hfm]
      | ok snap =>
        cases hup : tuf.update_snapshot snap with
        | error e => simp [hfm, hup]
        | ok bt => obtain ⟨b, tuf'⟩ := bt; simp [hfm, hup]
  · intro sn d hsn hlk
    refine ⟨?_, ?_, ?_⟩
    · intro hh
      simp only [update_targets, hsn, hlk, hh]
      cases hfm : repo.fetch_metadata .Targets .None d.length none with
      | error e => simp [hfm]
      | ok ta =>
        cases hup : tuf.update_targets ta with
        | error e => simp [hfm, hup]
        | ok bt => obtain ⟨b, tuf'⟩ := bt; simp [hfm, hup]
    · intro hsl e hh hpref
      simp [update_targets, hsn, hlk, hh, hpref]
    · intro hsl h hh hpref
      simp only [update_targets, hsn, hlk, hh, hpref]
      cases hfm : repo.fetch_metadata .Targets .None d.length (some h) with
      | error e => simp [hfm]
      | ok ta =>
        cases hup : tuf.update_targets ta with
        | error e => simp [hfm, hup]
        | ok bt => obtain ⟨b, tuf'⟩ := bt; simp [hfm, hup]
  · intro h
    simp [update_targets, h]

/-- Witness for C7: with a trusted timestamp whose descriptor declares
length 100 and a Sha256 digest, the snapshot fetch carries exactly that
length and that digest. -/
theorem descriptor_bounded_fetches_witness :
    (update_snapshot exTufTs (errRepo .Local)).2.2.head? =
      some (Event.fetch .Local .Snapshot .None (some 100)
        (some (HashAlgorithm.Sha256, "digest"))) :=
  ((descriptor_bounded_fetches exTufTs (errRepo .Local)).1
      ⟨1, [(MetadataPath.from_role .Timestamp, exDesc)]⟩ exDesc rfl rfl).2.2
    [(HashAlgorithm.Sha256, "digest")] (HashAlgorithm.Sha256, "digest") rfl rfl

/-- C5: in Client::update_remote the targets stage fetches from the local
source while the root, timestamp and snapshot stages fetch from the remote
source: every fetch event in the trace obeys the source policy. -/
theorem update_remote_source_selection (c : Client) :
    ((update_remote c).2.2.all
      (source_policy c.local_repo.tag c.remote_repo.tag)) = true := by
  simp only [update_remote]
  rcases hR : update_root c.tuf c.remote_repo c.config.max_root_size with ⟨r1, tuf1, t1⟩
  have h1 : t1.all (source_policy c.local_repo.tag c.remote_repo.tag) = true := by
    have := update_root_trace_all c.tuf c.remote_repo c.config.max_root_size
      (source_policy c.local_repo.tag c.remote_repo.tag)
      (fun v => by simp [source_policy]) (fun d => rfl)
    rw [hR] at this
    exact this
  cases r1 with
  | error e => simpa using h1
  | ok b1 =>
    cases b1 with
    | true => simpa using h1
    | false =>
      rcases hT : update_timestamp tuf1 c.remote_repo c.config.max_timestamp_size
        with ⟨r2, tuf2, t2⟩
      have h2 : t2.all (source_policy c.local_repo.tag c.remote_repo.tag) = true := by
        have := update_timestamp_trace_all tuf1 c.remote_repo c.config.max_timestamp_size
          (source_policy c.local_repo.tag c.remote_repo.tag)
          (by simp [source_policy]) (fun d => rfl)
        rw [hT] at this
        exact this
      cases r2 with
      | error e => simp [hT, h1, h2]
      | ok b2 =>
        cases b2 with
        | true => simp [hT, h1, h2]
        | false =>
          rcases hS : update_snapshot tuf2 c.remote_repo with ⟨r3, tuf3, t3⟩
          have h3 : t3.all (source_policy c.local_repo.tag c.remote_repo.tag) = true := by
            have := update_snapshot_trace_all tuf2 c.remote_repo
              (source_policy c.local_repo.tag c.remote_repo.tag)
              (fun l h => by simp [source_policy]) (fun d => rfl)
            rw [hS] at this
            exact this
          cases r3 with
          | error e => simp [hT, hS, h1, h2, h3]
          | ok b3 =>
            cases b3 with
            | true => simp [hT, hS, h1, h2, h3]
            | false =>
              rcases hG : update_targets tuf3 c.local_repo with ⟨r4, tuf4, t4⟩
              have h4 : t4.all (source_policy c.local_repo.tag c.remote_repo.tag) = true := by
                have := update_targets_trace_all tuf3 c.local_repo
                  (source_policy c.local_repo.tag c.remote_repo.tag)
                  (fun l h => by simp [source_policy]) (fun d => rfl)
                rw [hG] at this
                exact this
              cases r4 with
              | error e => simp [hT, hS, hG, h1, h2, h3, h4]
              | ok b4 => simp [hT, hS, hG, h1, h2, h3, h4]

/-- Stepping lemma for the intermediate-version loop: when the documents
served for the first m explicit versions starting at i are well-formed,
correctly signed and carry exactly the requested version numbers, the loop
adopts them one by one — advancing the trusted root version by m — and then
continues with the remaining iterations, its trace extended by the fetch
and submission events of those m adopted versions. -/
lemma update_root_steps_shift (repo : Repository) (mrs : Option Nat)
    (docs : Nat → SignedMetadata) :
    ∀ (m n i : Nat) (tuf : Tuf), m ≤ n →
      tuf.root.version + 1 = i →
      (∀ j, i ≤ j → j < i + m →
        repo.fetch_metadata .Root (.Number j) mrs none = .ok (docs j) ∧
        (docs j).version = j ∧ (docs j).sigOk = true ∧ (docs j).wellFormed = true) →
      update_root_steps repo mrs n i tuf =
        ((update_root_steps repo mrs (n - m) (i + m)
            { tuf with root := ⟨tuf.root.version + m⟩ }).1,
         (update_root_steps repo mrs (n - m) (i + m)
            { tuf with root := ⟨tuf.root.version + m⟩ }).2.1,
         root_chain_trace repo.tag mrs docs m i ++
           (update_root_steps repo mrs (n - m) (i + m)
              { tuf with root := ⟨tuf.root.version + m⟩ }).2.2) := by
  intro m
  induction m with
  | zero =>
    intro n i tuf _ _ _
    simp [root_chain_trace]
  | succ m ih =>
    intro n i tuf hmn hv hdocs
    cases n with
    | zero => omega
    | succ n' =>
      obtain ⟨hfm, hver, hsig, hwf⟩ := hdocs i (le_refl i) (by omega)
      have hupd : tuf.update_root (docs i) = .ok (true, { tuf with root := ⟨i⟩ }) := by
        simp [Tuf.update_root, hsig, hwf, hver, hv]
      have hstep : update_root_steps repo mrs (n' + 1) i tuf =
          ((update_root_steps repo mrs n' (i + 1) { tuf with root := ⟨i⟩ }).1,
           (update_root_steps repo mrs n' (i + 1) { tuf with root := ⟨i⟩ }).2.1,
           Event.fetch repo.tag .Root (.Number i) mrs none ::
             Event.submit .Root (docs i) ::
               (update_root_steps repo mrs n' (i + 1) { tuf with root := ⟨i⟩ }).2.2) := by
        rcases hrec : update_root_steps repo mrs n' (i + 1) { tuf with root := ⟨i⟩ }
          with ⟨r, tufF, tr⟩
        simp [update_root_steps, hfm, hupd, hrec]
      have hIH := ih n' (i + 1) { tuf with root := ⟨i⟩ } (by omega) (by simp)
        (fun j hj1 hj2 => hdocs j (by omega) (by omega))
      have harith1 : n' + 1 - (m + 1) = n' - m := by omega
      have harith2 : i + (m + 1) = i + 1 + m := by omega
      have harith3 : tuf.root.version + (m + 1) = i + m := by omega
      rw [hstep, hIH, harith1, harith2, harith3]
      simp [root_chain_trace, List.append_assoc]

/-- C3: in the root refresh stage, for trusted root version C and peeked
latest version L: if L < C the stage fails with a verification error and
the trust store is unchanged (no submission issued); if L = C it returns
false without submitting any adoption; if L > C it fetches each explicit
version i in C+1 .. L-1 in increasing order, submits each to root adoption,
then submits the originally fetched latest document, and returns true when
all are adopted. -/
theorem update_root_version_cases (tuf : Tuf) (repo : Repository) (mrs : Option Nat)
    (lr : SignedMetadata) (L : Nat) (docs : Nat → SignedMetadata)
    (hf : repo.fetch_metadata .Root .None mrs none = .ok lr)
    (hwf : lr.wellFormed = true)
    (hv : lr.version = L) :
    (L < tuf.root.version →
       update_root tuf repo mrs =
         (.error (.VerificationFailure
           ("Latest root version is lower than current root version: " ++
             toString L ++ " < " ++ toString tuf.root.version)),
          tuf, [Event.fetch repo.tag .Root .None mrs none])) ∧
    (L = tuf.root.version →
       update_root tuf repo mrs =
         (.ok false, tuf, [Event.fetch repo.tag .Root .None mrs none])) ∧
    (tuf.root.version < L → lr.sigOk = true →
       (∀ j, tuf.root.version + 1 ≤ j → j < L →
          repo.fetch_metadata .Root (.Number j) mrs none = .ok (docs j) ∧
          (docs j).version = j ∧ (docs j).sigOk = true ∧ (docs j).wellFormed = true) →
       update_root tuf repo mrs =
         (.ok true, { tuf with root := ⟨L⟩ },
          Event.fetch repo.tag .Root .None mrs none ::
            (root_chain_trace repo.tag mrs docs
               (L - (tuf.root.version + 1)) (tuf.root.version + 1) ++
             [Event.submit .Root lr]))) := by
  have hds : deserialize_root_version lr = .ok L := by
    simp [deserialize_root_version, hwf, hv]
  refine ⟨?_, ?_, ?_⟩
  · intro h1
    simp [update_root, hf, hds, h1]
  · intro h2
    simp [update_root, hf, hds, h2]
  · intro h3 hsig hdocs
    have h1 : ¬ L < tuf.root.version := by omega
    have h2 : ¬ L = tuf.root.version := by omega
    have hshift := update_root_steps_shift repo mrs docs
      (L - (tuf.root.version + 1)) (L - (tuf.root.version + 1)) (tuf.root.version + 1) tuf
      (le_refl _) rfl
      (fun j hj1 hj2 => hdocs j hj1 (by omega))
    rw [Nat.sub_self] at hshift
    simp only [update_root_steps] at hshift
    have hTv : tuf.root.version + (L - (tuf.root.version + 1)) = L - 1 := by omega
    rw [hTv] at hshift
    have hupd : Tuf.update_root { tuf with root := ⟨L - 1⟩ } lr =
        .ok (true, { tuf with root := ⟨L⟩ }) := by
      simp [Tuf.update_root, hwf, hsig, hv]
      omega
    simp only [update_root, hf, hds, if_neg h1, if_neg h2, hshift, hupd]
    simp

/-- Witness for C3: with trusted root version 1 and a source offering a
fully valid chain up to version 4, the stage fetches versions 2 and 3 in
order, submits each, then submits the latest document, and returns true. -/
theorem update_root_version_cases_witness :
    (1 : Nat) < 4 ∧
    update_root exTuf1 repoChainGood (some 1048576) =
      (.ok true, ⟨⟨4⟩, none, none, none⟩,
       [Event.fetch .Remote .Root .None (some 1048576) none,
        Event.fetch .Remote .Root (.Number 2) (some 1048576) none,
        Event.submit .Root (exDoc 2 true),
        Event.fetch .Remote .Root (.Number 3) (some 1048576) none,
        Event.submit .Root (exDoc 3 true),
        Event.submit .Root (exDoc 4 true)]) :=
  ⟨by decide,
   (update_root_version_cases exTuf1 repoChainGood (some 1048576) (exDoc 4 true) 4 docsGood
       rfl rfl rfl).2.2 (by decide) rfl
     (fun j h1 h2 => by
       have hC : exTuf1.root.version = 1 := rfl
       rw [hC] at h1
       have hj : j = 2 ∨ j = 3 := by omega
       rcases hj with rfl | rfl
       · exact ⟨rfl, rfl, rfl, rfl⟩
       · exact ⟨rfl, rfl, rfl, rfl⟩)⟩

/-- Shared helper: when the chain from C+1 up to just before k is served
correctly and adopted, and the document served for version k (with
C < k < L) makes root adoption fail — either with an error or by being
reported not adopted — the root stage aborts.  In both cases every version
below k has already been adopted, so the store's root version afterwards is
k - 1, and the originally fetched latest document is never submitted. -/
lemma update_root_chain_failure (tuf : Tuf) (repo : Repository) (mrs : Option Nat)
    (lr : SignedMetadata) (L k : Nat) (docs : Nat → SignedMetadata) (dk : SignedMetadata)
    (hf : repo.fetch_metadata .Root .None mrs none = .ok lr)
    (hwf : lr.wellFormed = true) (hv : lr.version = L)
    (hk1 : tuf.root.version < k) (hk2 : k < L)
    (hdocs : ∀ j, tuf.root.version + 1 ≤ j → j < k →
       repo.fetch_metadata .Root (.Number j) mrs none = .ok (docs j) ∧
       (docs j).version = j ∧ (docs j).sigOk = true ∧ (docs j).wellFormed = true)
    (hfk : repo.fetch_metadata .Root (.Number k) mrs none = .ok dk) :
    (∀ e, Tuf.update_root { tuf with root := ⟨k - 1⟩ } dk = .error e →
       update_root tuf repo mrs =
         (.error e, { tuf with root := ⟨k - 1⟩ },
          Event.fetch repo.tag .Root .None mrs none ::
            (root_chain_trace repo.tag mrs docs
               (k - (tuf.root.version + 1)) (tuf.root.version + 1) ++
             [Event.fetch repo.tag .Root (.Number k) mrs none,
              Event.submit .Root dk]))) ∧
    (∀ tuf', Tuf.update_root { tuf with root := ⟨k - 1⟩ } dk = .ok (false, tuf') →
       update_root tuf repo mrs =
         (.error (.Generic err_msg), tuf',
          Event.fetch repo.tag .Root .None mrs none ::
            (root_chain_trace repo.tag mrs docs
               (k - (tuf.root.version + 1)) (tuf.root.version + 1) ++
             [Event.fetch repo.tag .Root (.Number k) mrs none,
              Event.submit .Root dk]))) := by
  have hds : deserialize_root_version lr = .ok L := by
    simp [deserialize_root_version, hwf, hv]
  have h1 : ¬ L < tuf.root.version := by omega
  have h2 : ¬ L = tuf.root.version := by omega
  have hmn : k - (tuf.root.version + 1) ≤ L - (tuf.root.version + 1) := by omega
  have hshift := update_root_steps_shift repo mrs docs (k - (tuf.root.version + 1))
    (L - (tuf.root.version + 1)) (tuf.root.version + 1) tuf hmn rfl
    (fun j hj1 hj2 => hdocs j hj1 (by omega))
  have hik : tuf.root.version + 1 + (k - (tuf.root.version + 1)) = k := by omega
  have hkm : tuf.root.version + (k - (tuf.root.version + 1)) = k - 1 := by omega
  have hnm : L - (tuf.root.version + 1) - (k - (tuf.root.version + 1)) = L - k := by omega
  rw [hik, hkm, hnm] at hshift
  obtain ⟨p, hp⟩ : ∃ p, L - k = p + 1 := ⟨L - k - 1, by omega⟩
  rw [hp] at hshift
  constructor
  · intro e hfail
    have hone : update_root_steps repo mrs (p + 1) k { tuf with root := ⟨k - 1⟩ } =
        (.error e, { tuf with root := ⟨k - 1⟩ },
         [Event.fetch repo.tag .Root (.Number k) mrs none, Event.submit .Root dk]) := by
      simp [update_root_steps, hfk, hfail]
    rw [hone] at hshift
    simp only [update_root, hf, hds, if_neg h1, if_neg h2, hshift]
  · intro tuf' hfail
    have hone : update_root_steps repo mrs (p + 1) k { tuf with root := ⟨k - 1⟩ } =
        (.error (.Generic err_msg), tuf',
         [Event.fetch repo.tag .Root (.Number k) mrs none, Event.submit .Root dk]) := by
      simp [update_root_steps, hfk, hfail]
    rw [hone] at hshift
    simp only [update_root, hf, hds, if_neg h1, if_neg h2, hshift]

/-- Counterexample for C4: trusted root version 1, source offers latest
version 4 with a valid version 2 and a version 3 whose signatures fail.
The call fails for the intermediate k = 3 with 1 < 3 < 4, yet the trusted
root version afterwards is 2, not the 1 the claim requires — the adopted
intermediate persists. -/
theorem update_root_partial_adoption_persists :
    exTuf1.root.version = 1 ∧
    (update_root exTuf1 repoChainBadSig (some 1048576)).1 =
      .error (.VerificationFailure "signature threshold not met for root") ∧
    (update_root exTuf1 repoChainBadSig (some 1048576)).2.1.root.version = 2 ∧
    ¬ (update_root exTuf1 repoChainBadSig (some 1048576)).2.1.root.version =
        exTuf1.root.version := by
  refine ⟨rfl, rfl, rfl, by decide⟩

/-- C4 (amended): root rotation fails atomically at the first failing
intermediate: if every version in C+1 .. k-1 was served validly and
adoption of the document served for version k (C < k < target) fails —
either with an error or by being reported not adopted — then the call fails
and the trusted root version afterwards is exactly k - 1, the last
successfully adopted version (so it remains exactly C precisely when
k = C+1); no version at or above k is adopted and the originally fetched
target document is never submitted. -/
theorem update_root_first_failure_state (tuf : Tuf) (repo : Repository) (mrs : Option Nat)
    (lr : SignedMetadata) (L k : Nat) (docs : Nat → SignedMetadata) (dk : SignedMetadata)
    (hf : repo.fetch_metadata .Root .None mrs none = .ok lr)
    (hwf : lr.wellFormed = true) (hv : lr.version = L)
    (hk1 : tuf.root.version < k) (hk2 : k < L)
    (hdocs : ∀ j, tuf.root.version + 1 ≤ j → j < k →
       repo.fetch_metadata .Root (.Number j) mrs none = .ok (docs j) ∧
       (docs j).version = j ∧ (docs j).sigOk = true ∧ (docs j).wellFormed = true)
    (hfk : repo.fetch_metadata .Root (.Number k) mrs none = .ok dk) :
    (∀ e, Tuf.update_root { tuf with root := ⟨k - 1⟩ } dk = .error e →
       update_root tuf repo mrs =
         (.error e, { tuf with root := ⟨k - 1⟩ },
          Event.fetch repo.tag .Root .None mrs none ::
            (root_chain_trace repo.tag mrs docs
               (k - (tuf.root.version + 1)) (tuf.root.version + 1) ++
             [Event.fetch repo.tag .Root (.Number k) mrs none,
              Event.submit .Root dk]))) ∧
    (∀ tuf', Tuf.update_root { tuf with root := ⟨k - 1⟩ } dk = .ok (false, tuf') →
       update_root tuf repo mrs =
         (.error (.Generic err_msg), tuf',
          Event.fetch repo.tag .Root .None mrs none ::
            (root_chain_trace repo.tag mrs docs
               (k - (tuf.root.version + 1)) (tuf.root.version + 1) ++
             [Event.fetch repo.tag .Root (.Number k) mrs none,
              Event.submit .Root dk]))) :=
  update_root_chain_failure tuf repo mrs lr L k docs dk hf hwf hv hk1 hk2 hdocs hfk

/-- Witness for the amended C4: the concrete bad-signature run fails at
k = 3 leaving the trusted root version at 2 = k - 1, with the version-4
document never submitted. -/
theorem update_root_first_failure_state_witness :
    exTuf1.root.version < 3 ∧
    update_root exTuf1 repoChainBadSig (some 1048576) =
      (.error (.VerificationFailure "signature threshold not met for root"),
       { exTuf1 with root := ⟨2⟩ },
       [Event.fetch .Remote .Root .None (some 1048576) none,
        Event.fetch .Remote .Root (.Number 2) (some 1048576) none,
        Event.submit .Root (exDoc 2 true),
        Event.fetch .Remote .Root (.Number 3) (some 1048576) none,
        Event.submit .Root (exDoc 3 false)]) :=
  ⟨by decide,
   (update_root_first_failure_state exTuf1 repoChainBadSig (some 1048576) (exDoc 4 true) 4 3
       docsGood (exDoc 3 false) rfl rfl rfl (by decide) (by decide)
       (fun j h1 h2 => by
         have hC : exTuf1.root.version = 1 := rfl
         rw [hC] at h1
         have hj : j = 2 := by omega
         subst hj
         exact ⟨rfl, rfl, rfl, rfl⟩)
       rfl).1
     (.VerificationFailure "signature threshold not met for root") rfl⟩

/-- C8: when the trust store's root-adoption operation reports non-adoption
for an intermediate the orchestrator had already range-validated, the root
stage fails with the Generic internal-invariant error, which is distinct
from the verification-failure and missing-metadata errors used for
attacker-controlled conditions. -/
theorem non_adoption_internal_error (tuf : Tuf) (repo : Repository) (mrs : Option Nat)
    (lr : SignedMetadata) (L k : Nat) (docs : Nat → SignedMetadata) (dk : SignedMetadata)
    (hf : repo.fetch_metadata .Root .None mrs none = .ok lr)
    (hwf : lr.wellFormed = true) (hv : lr.version = L)
    (hk1 : tuf.root.version < k) (hk2 : k < L)
    (hdocs : ∀ j, tuf.root.version + 1 ≤ j → j < k →
       repo.fetch_metadata .Root (.Number j) mrs none = .ok (docs j) ∧
       (docs j).version = j ∧ (docs j).sigOk = true ∧ (docs j).wellFormed = true)
    (hfk : repo.fetch_metadata .Root (.Number k) mrs none = .ok dk) :
    (∀ tuf', Tuf.update_root { tuf with root := ⟨k - 1⟩ } dk = .ok (false, tuf') →
       (update_root tuf repo mrs).1 = .error (.Generic err_msg)) ∧
    (∀ s t : String, Error.Generic s ≠ Error.VerificationFailure t) ∧
    (∀ (s : String) (r : Role), Error.Generic s ≠ Error.MissingMetadata r) := by
  refine ⟨?_, ?_, ?_⟩
  · intro tuf' hfail
    have := (update_root_chain_failure tuf repo mrs lr L k docs dk
      hf hwf hv hk1 hk2 hdocs hfk).2 tuf' hfail
    rw [this]
  · intro s t h
    exact Error.noConfusion h
  · intro s r h
    exact Error.noConfusion h

/-- Witness for C8: serving a document that declares version 7 in the slot
for version 3 makes adoption report non-adoption, and the stage fails with
the Generic internal-invariant error. -/
theorem non_adoption_internal_error_witness :
    Tuf.update_root { exTuf1 with root := ⟨2⟩ } (exDoc 7 true) =
      .ok (false, { exTuf1 with root := ⟨2⟩ }) ∧
    (update_root exTuf1 repoChainWrongVersion (some 1048576)).1 =
      .error (.Generic err_msg) :=
  ⟨rfl,
   (non_adoption_internal_error exTuf1 repoChainWrongVersion (some 1048576) (exDoc 4 true) 4 3
       docsGood (exDoc 7 true) rfl rfl rfl (by decide) (by decide)
       (fun j h1 h2 => by
         have hC : exTuf1.root.version = 1 := rfl
         rw [hC] at h1
         have hj : j = 2 := by omega
         subst hj
         exact ⟨rfl, rfl, rfl, rfl⟩)
       rfl).1
     { exTuf1 with root := ⟨2⟩ } rfl⟩

/-- C2: Client::update_local always propagates a root-stage error to the
caller; an error raised by the timestamp, snapshot or targets stage is never
returned but treated as that stage not having updated (a warning is
emitted), and on success it returns the boolean OR of the four stage
outcomes, over the state threaded through the stages. -/
theorem update_local_isolation (c : Client) :
    (∀ e tuf1 t1,
       update_root c.tuf c.local_repo c.config.max_root_size = (.error e, tuf1, t1) →
       update_local c = (.error e, { c with tuf := tuf1 }, t1)) ∧
    (∀ r tuf1 t1 x2 tuf2 t2 x3 tuf3 t3 x4 tuf4 t4,
       update_root c.tuf c.local_repo c.config.max_root_size = (.ok r, tuf1, t1) →
       update_timestamp tuf1 c.local_repo c.config.max_timestamp_size = (x2, tuf2, t2) →
       update_snapshot tuf2 c.local_repo = (x3, tuf3, t3) →
       update_targets tuf3 c.local_repo = (x4, tuf4, t4) →
       update_local c =
         (.ok (r || stage_bool x2 || stage_bool x3 || stage_bool x4),
          { c with tuf := tuf4 },
          t1 ++ (t2 ++ warn_if x2 .Timestamp) ++ (t3 ++ warn_if x3 .Snapshot) ++
            (t4 ++ warn_if x4 .Targets))) := by
  constructor
  · intro e tuf1 t1 h
    simp [update_local, h]
  · intro r tuf1 t1 x2 tuf2 t2 x3 tuf3 t3 x4 tuf4 t4 h1 h2 h3 h4
    cases x2 <;> cases x3 <;> cases x4 <;>
      simp [update_local, h1, h2, h3, h4, stage_bool, warn_if]

/-- Witness for C2: a local cache holding only the already-trusted root.
The root stage returns false, the other three stages all fail, yet the call
succeeds with false and a warning per suppressed stage. -/
theorem update_local_isolation_witness :
    update_local clientLocalStale =
      (.ok false, clientLocalStale,
       [Event.fetch .Local .Root .None (some 1048576) none,
        Event.fetch .Local .Timestamp .None (some 32768) none,
        Event.warn .Timestamp, Event.warn .Snapshot, Event.warn .Targets]) :=
  (update_local_isolation clientLocalStale).2 false exTuf1
    [Event.fetch .Local .Root .None (some 1048576) none]
    (.error (.Decode "unavailable")) exTuf1
    [Event.fetch .Local .Timestamp .None (some 32768) none]
    (.error (.MissingMetadata .Timestamp)) exTuf1 []
    (.error (.MissingMetadata .Snapshot)) exTuf1 []
    rfl rfl rfl rfl

/-- Counterexample for C1: a client whose remote root stage adopts version 2
and returns true while the remote timestamp fetch fails.  The claim
requires every stage to be executed unless an earlier stage returned an
error — here no stage errors before the timestamp stage, so the timestamp
stage would run and its failure would be returned; the code instead
short-circuits after the root stage returned true: the call succeeds and
the trace contains no timestamp fetch. -/
theorem update_remote_skips_after_true :
    clientRootV2.remote_repo.fetch_metadata .Timestamp .None
        clientRootV2.config.max_timestamp_size none = .error (.Decode "unavailable") ∧
    (update_remote clientRootV2).1 = .ok true ∧
    (update_remote clientRootV2).2.2 =
      [Event.fetch .Remote .Root .None (some 1048576) none,
       Event.submit .Root (exDoc 2 true)] ∧
    ((update_remote clientRootV2).2.2.all
      (fun e => match e with
        | Event.fetch _ .Timestamp _ _ _ => false
        | _ => true)) = true :=
  ⟨rfl, rfl, rfl, rfl⟩

/-- C1 (amended): Client::update_remote evaluates the stages strictly in
order root, timestamp, snapshot, targets, against the remote source except
targets against the local source, and short-circuits twice over: the first
stage to return an error aborts the whole call with that error, and the
first stage to return true ends the call with true, skipping all later
stages; a stage is executed only when every earlier stage returned false. -/
theorem update_remote_stage_sequencing (c : Client) :
    (∀ e tuf1 t1,
       update_root c.tuf c.remote_repo c.config.max_root_size = (.error e, tuf1, t1) →
       update_remote c = (.error e, { c with tuf := tuf1 }, t1)) ∧
    (∀ tuf1 t1,
       update_root c.tuf c.remote_repo c.config.max_root_size = (.ok true, tuf1, t1) →
       update_remote c = (.ok true, { c with tuf := tuf1 }, t1)) ∧
    (∀ tuf1 t1,
       update_root c.tuf c.remote_repo c.config.max_root_size = (.ok false, tuf1, t1) →
       ((∀ e tuf2 t2,
           update_timestamp tuf1 c.remote_repo c.config.max_timestamp_size =
             (.error e, tuf2, t2) →
           update_remote c = (.error e, { c with tuf := tuf2 }, t1 ++ t2)) ∧
        (∀ tuf2 t2,
           update_timestamp tuf1 c.remote_repo c.config.max_timestamp_size =
             (.ok true, tuf2, t2) →
           update_remote c = (.ok true, { c with tuf := tuf2 }, t1 ++ t2)) ∧
        (∀ tuf2 t2,
           update_timestamp tuf1 c.remote_repo c.config.max_timestamp_size =
             (.ok false, tuf2, t2) →
           ((∀ e tuf3 t3,
               update_snapshot tuf2 c.remote_repo = (.error e, tuf3, t3) →
               update_remote c = (.error e, { c with tuf := tuf3 }, t1 ++ t2 ++ t3)) ∧
            (∀ tuf3 t3,
               update_snapshot tuf2 c.remote_repo = (.ok true, tuf3, t3) →
               update_remote c = (.ok true, { c with tuf := tuf3 }, t1 ++ t2 ++ t3)) ∧
            (∀ tuf3 t3,
               update_snapshot tuf2 c.remote_repo = (.ok false, tuf3, t3) →
               ((∀ e tuf4 t4,
                   update_targets tuf3 c.local_repo = (.error e, tuf4, t4) →
                   update_remote c =
                     (.error e, { c with tuf := tuf4 }, t1 ++ t2 ++ t3 ++ t4)) ∧
                (∀ b tuf4 t4,
                   update_targets tuf3 c.local_repo = (.ok b, tuf4, t4) →
                   update_remote c =
                     (.ok b, { c with tuf := tuf4 }, t1 ++ t2 ++ t3 ++ t4)))))))) := by
  refine ⟨?_, ?_, ?_⟩
  · intro e tuf1 t1 h
    simp [update_remote, h]
  · intro tuf1 t1 h
    simp [update_remote, h]
  · intro tuf1 t1 h
    refine ⟨?_, ?_, ?_⟩
    · intro e tuf2 t2 h2
      simp [update_remote, h, h2]
    · intro tuf2 t2 h2
      simp [update_remote, h, h2]
    · intro tuf2 t2 h2
      refine ⟨?_, ?_, ?_⟩
      · intro e tuf3 t3 h3
        simp [update_remote, h, h2, h3]
      · intro tuf3 t3 h3
        simp [update_remote, h, h2, h3]
      · intro tuf3 t3 h3
        constructor
        · intro e tuf4 t4 h4
          simp [update_remote, h, h2, h3, h4]
        · intro b tuf4 t4 h4
          simp [update_remote, h, h2, h3, h4]

/-- Witness for the amended C1: when the remote root fetch itself fails,
that first stage error is returned unchanged. -/
theorem update_remote_stage_sequencing_witness :
    update_remote clientAllErr =
      (.error (.Decode "unavailable"), clientAllErr,
       [Event.fetch .Remote .Root .None (some 1048576) none]) :=
  (update_remote_stage_sequencing clientAllErr).1 (.Decode "unavailable") exTuf1
    [Event.fetch .Remote .Root .None (some 1048576) none] rfl
